import Mathlib

/-!
Verification of the LatteReview GUI review-pipeline helpers.

The definitions below are a shallow embedding of the Python source files
`gui_utils.py`, `app.py` and `ui_components.py`: pandas cell values become an
inductive `Value` type, dataframe rows become association lists from column
names to values, and code that can raise a Python exception is embedded in
`Except String`.
-/

namespace LatteReview

/-! ## Project-name sanitization (`gui_utils.sanitize_project_name`, also in `app.py`)

The Python code is
a strip, then a re.sub deleting every character outside the class
[a-zA-Z0-9_\-\s], then a re.sub replacing each whitespace run by an underscore.
Character classes are expressed over Unicode code points (`Char.toNat`):
`isPySpace` models the whitespace class used by `str.strip` and the regex `\s`
(ASCII whitespace plus the Unicode whitespace code points); `isAsciiAlphaNum`
models the ranges `a-z`, `A-Z`, `0-9` of the regex. -/

def pySpaceCodes : List Nat :=
  [9, 10, 11, 12, 13, 28, 29, 30, 31, 32, 133, 160, 5760,
   8192, 8193, 8194, 8195, 8196, 8197, 8198, 8199, 8200, 8201, 8202,
   8232, 8233, 8239, 8287, 12288]

def isPySpace (c : Char) : Bool := decide (c.toNat ∈ pySpaceCodes)

def isAsciiAlphaNum (n : Nat) : Bool :=
  decide ((65 ≤ n ∧ n ≤ 90) ∨ (97 ≤ n ∧ n ≤ 122) ∨ (48 ≤ n ∧ n ≤ 57))

/-- A character kept by the regex `[^a-zA-Z0-9_\-\s]` deletion step
(code point 95 is the underscore, 45 the hyphen). -/
def isKeepChar (c : Char) : Bool :=
  isAsciiAlphaNum c.toNat || decide (c.toNat = 95) || decide (c.toNat = 45) || isPySpace c

/-- Python str.strip: drop leading and trailing whitespace. -/
def pyStripChars (l : List Char) : List Char :=
  ((l.dropWhile isPySpace).reverse.dropWhile isPySpace).reverse

/-- Model of the whitespace substitution: replace each maximal run of
whitespace by one underscore.  The boolean is true while inside a whitespace run. -/
def subSpacesAux : Bool → List Char → List Char
  | _, [] => []
  | inRun, c :: rest =>
    if isPySpace c then
      if inRun then subSpacesAux true rest else '_' :: subSpacesAux true rest
    else c :: subSpacesAux false rest

def sanitize_project_name (s : String) : String :=
  String.mk (subSpacesAux false ((pyStripChars s.data).filter isKeepChar))

/-- The character set claimed for sanitized names: ASCII letters, digits,
underscore, hyphen. -/
def isWordChar (c : Char) : Bool :=
  isAsciiAlphaNum c.toNat || decide (c.toNat = 95) || decide (c.toNat = 45)

theorem wordChar_not_space {c : Char} (h : isWordChar c = true) : isPySpace c = false := by
  unfold isWordChar isAsciiAlphaNum at h
  unfold isPySpace
  rw [Bool.eq_false_iff]
  intro hmem
  have hmem' : c.toNat ∈ pySpaceCodes := of_decide_eq_true hmem
  simp only [Bool.or_eq_true, decide_eq_true_eq] at h
  simp only [pySpaceCodes, List.mem_cons, List.not_mem_nil, or_false] at hmem'
  omega

theorem keep_not_space_wordChar {c : Char} (hk : isKeepChar c = true)
    (hs : isPySpace c = false) : isWordChar c = true := by
  unfold isKeepChar at hk
  unfold isWordChar
  rw [hs] at hk
  simpa using hk

theorem mem_subSpacesAux {c : Char} :
    ∀ (b : Bool) (l : List Char), c ∈ subSpacesAux b l →
      c = '_' ∨ (c ∈ l ∧ isPySpace c = false) := by
  intro b l
  induction l generalizing b with
  | nil => intro h; exact absurd h (by simp [subSpacesAux])
  | cons a rest ih =>
    intro h
    unfold subSpacesAux at h
    by_cases hsp : isPySpace a = true
    · rw [if_pos hsp] at h
      by_cases hb : b = true
      · subst hb
        rw [if_pos rfl] at h
        rcases ih true h with h' | h'
        · exact Or.inl h'
        · exact Or.inr ⟨List.mem_cons_of_mem _ h'.1, h'.2⟩
      · rw [Bool.not_eq_true] at hb
        subst hb
        simp only [Bool.false_eq_true, if_false, List.mem_cons] at h
        rcases h with h' | h'
        · exact Or.inl h'
        · rcases ih true h' with h'' | h''
          · exact Or.inl h''
          · exact Or.inr ⟨List.mem_cons_of_mem _ h''.1, h''.2⟩
    · rw [Bool.not_eq_true] at hsp
      rw [if_neg (by simp [hsp])] at h
      rcases List.mem_cons.mp h with h' | h'
      · subst h'
        exact Or.inr ⟨List.mem_cons_self _ _, hsp⟩
      · rcases ih false h' with h'' | h''
        · exact Or.inl h''
        · exact Or.inr ⟨List.mem_cons_of_mem _ h''.1, h''.2⟩

theorem subSpacesAux_id {l : List Char} (h : ∀ c ∈ l, isPySpace c = false) :
    ∀ b, subSpacesAux b l = l := by
  induction l with
  | nil => intro b; rfl
  | cons a rest ih =>
    intro b
    unfold subSpacesAux
    rw [if_neg (by rw [h a (List.mem_cons_self _ _)]; simp)]
    rw [ih (fun c hc => h c (List.mem_cons_of_mem _ hc))]

theorem dropWhile_space_id {l : List Char} (h : ∀ c ∈ l, isPySpace c = false) :
    l.dropWhile isPySpace = l := by
  cases l with
  | nil => rfl
  | cons a rest =>
    rw [List.dropWhile_cons]
    rw [h a (List.mem_cons_self _ _)]
    simp

theorem pyStripChars_id {l : List Char} (h : ∀ c ∈ l, isPySpace c = false) :
    pyStripChars l = l := by
  unfold pyStripChars
  rw [dropWhile_space_id h]
  rw [dropWhile_space_id (fun c hc => h c (List.mem_reverse.mp hc))]
  exact List.reverse_reverse l

theorem sanitize_chars {s : String} :
    ∀ c ∈ (sanitize_project_name s).data, isWordChar c = true := by
  intro c hc
  unfold sanitize_project_name at hc
  simp only [String.data] at hc
  rcases mem_subSpacesAux false _ hc with h | h
  · subst h; decide
  · have hk : isKeepChar c = true := (List.mem_filter.mp h.1).2
    exact keep_not_space_wordChar hk h.2

theorem sanitize_fixed {t : String} (h : ∀ c ∈ t.data, isWordChar c = true) :
    sanitize_project_name t = t := by
  have hall : ∀ c ∈ t.data, isPySpace c = false :=
    fun c hc => wordChar_not_space (h c hc)
  have hfil : t.data.filter isKeepChar = t.data := by
    apply List.filter_eq_self.mpr
    intro c hc
    have hw := h c hc
    unfold isWordChar at hw
    unfold isKeepChar
    simp only [Bool.or_eq_true] at hw ⊢
    tauto
  unfold sanitize_project_name
  rw [pyStripChars_id hall, hfil, subSpacesAux_id hall false]

/-- Claim C9: `sanitize_project_name` is idempotent and its output consists only
of ASCII letters, digits, underscores and hyphens. -/
theorem sanitize_project_name_idempotent_and_charset (s : String) :
    sanitize_project_name (sanitize_project_name s) = sanitize_project_name s ∧
    ∀ c ∈ (sanitize_project_name s).data, isWordChar c = true :=
  ⟨sanitize_fixed sanitize_chars, sanitize_chars⟩

/-- Witness for C9 at the concrete input `"My Proj!"`
(sanitized to `"My_Proj"`, whose underscore is a word character). -/
theorem sanitize_project_name_idempotent_witness : isWordChar '_' = true :=
  (sanitize_project_name_idempotent_and_charset "My Proj!").2 '_' (by decide)

/-! ## Workflow configuration (the GUI session dict `workflow_config[project]`)

A workflow is a dict with a `rounds` list; each round has a `name`, an
`agents` list and an optional `filter_config` dict with a `type` and an
optional `threshold`.  Agent `type` is a free string in the dict (checked
against `AGENT_TYPES_MAP` only when the workflow is built). -/

structure FilterConfig where
  ftype : String
  threshold : Option Rat
deriving DecidableEq, Repr

structure AgentConfig where
  name : String
  atype : String
  backstory : String
  inclusion_criteria : String
  exclusion_criteria : String
deriving DecidableEq, Repr

structure RoundConfig where
  name : String
  agents : List AgentConfig
  filter_config : Option FilterConfig
deriving DecidableEq, Repr

structure WorkflowConfig where
  rounds : List RoundConfig
deriving DecidableEq, Repr

/-- Embedding of `gui_utils.is_workflow_runnable` (the identical checker also lives inside
`app.main`): false for a missing/empty workflow or empty rounds list, false if
any round has no agents, true otherwise.  `none` models passing `None` (and a
dict with a falsy `rounds` entry is a `some` with an empty list). -/
def is_workflow_runnable (wf : Option WorkflowConfig) : Bool :=
  match wf with
  | none => false
  | some w =>
    if w.rounds.isEmpty then false
    else w.rounds.all (fun r => !r.agents.isEmpty)

/-- Claim C8: the runnable check holds iff the rounds list is non-empty and every
round has a non-empty agents list. -/
theorem is_workflow_runnable_iff (w : WorkflowConfig) :
    is_workflow_runnable (some w) = true ↔
      (w.rounds ≠ [] ∧ ∀ r ∈ w.rounds, r.agents ≠ []) := by
  simp only [is_workflow_runnable]
  constructor
  · intro h
    by_cases hne : w.rounds.isEmpty = true
    · rw [if_pos hne] at h; exact absurd h (by simp)
    · rw [if_neg hne] at h
      refine ⟨by simpa using hne, ?_⟩
      intro r hr
      have := (List.all_eq_true.mp h) r hr
      simpa using this
  · intro ⟨h1, h2⟩
    rw [if_neg (by simpa using h1)]
    apply List.all_eq_true.mpr
    intro r hr
    simpa using h2 r hr

/-- Witness for C8: a one-round, one-agent workflow is runnable; a workflow
whose second round has no agents is not. -/
theorem is_workflow_runnable_iff_witness :
    is_workflow_runnable (some ⟨[⟨"Round 1", [⟨"Agent 1", "TitleAbstractReviewer", "", "", ""⟩], none⟩]⟩) = true ∧
    is_workflow_runnable (some ⟨[⟨"Round 1", [⟨"Agent 1", "TitleAbstractReviewer", "", "", ""⟩], none⟩,
                                 ⟨"Round 2", [], none⟩]⟩) = false := by
  constructor
  · exact (is_workflow_runnable_iff _).mpr (by constructor <;> simp)
  · have := is_workflow_runnable_iff
      ⟨[⟨"Round 1", [⟨"Agent 1", "TitleAbstractReviewer", "", "", ""⟩], none⟩, ⟨"Round 2", [], none⟩]⟩
    rw [Bool.eq_false_iff]
    intro hcon
    have h2 := (this.mp hcon).2 ⟨"Round 2", [], none⟩ (by simp)
    exact h2 rfl

/-! ## RIS export (`gui_utils.convert_dataframe_to_ris_text`)

A dataframe row is modelled by its named columns; `Option String` fields stand
for cells that can be missing or NaN (`none`) — the Python guard
`pd.notna(x) and x` additionally rejects empty strings.  `authors` and
`keywords` are list-valued columns (the parser guarantees lists). -/

structure RisRow where
  title : Option String
  id : Option String
  abstract : Option String
  year : Option String
  journal_name : Option String
  authors : List String
  keywords : List String
  final_decision : Option String
  final_score : Option String
deriving DecidableEq, Repr

/-- One `TAG  - value` line, emitted when the cell is present and truthy. -/
def optLine (tag : String) (o : Option String) : List String :=
  match o with
  | some v => if v = "" then [] else [tag ++ "  - " ++ v]
  | none => []

def rowToRisLines (r : RisRow) : List String :=
  ["TY  - JOUR"]
  ++ optLine "TI" r.title
  ++ optLine "ID" r.id
  ++ optLine "AB" r.abstract
  ++ optLine "PY" r.year
  ++ optLine "JO" r.journal_name
  ++ r.authors.map (fun a => "AU  - " ++ a)
  ++ r.keywords.map (fun k => "KW  - " ++ k)
  ++ (match r.final_decision with
      | some v => ["N1  - ReviewDecision: " ++ v]
      | none => [])
  ++ (match r.final_score with
      | some v => if v.toLower = "n/a" then [] else ["N1  - ReviewScore: " ++ v]
      | none => [])
  ++ ["ER  - "]

def risBlock (r : RisRow) : String := String.intercalate "\n" (rowToRisLines r)

/-- Embedding of `gui_utils.convert_dataframe_to_ris_text`: `""` for a `None` or empty
dataframe, otherwise the blocks joined by blank lines plus a final newline. -/
def convert_dataframe_to_ris_text (df : Option (List RisRow)) : String :=
  match df with
  | none => ""
  | some rows =>
    if rows.isEmpty then ""
    else String.intercalate "\n\n" (rows.map risBlock) ++ "\n"

theorem rowToRisLines_head (r : RisRow) :
    (rowToRisLines r).head? = some "TY  - JOUR" := rfl

theorem rowToRisLines_last (r : RisRow) :
    (rowToRisLines r).getLast? = some "ER  - " := by
  unfold rowToRisLines
  exact List.getLast?_concat _

/-- Claim C10: RIS conversion returns `""` exactly for a `None` or empty
dataframe; for a non-empty dataframe it emits one block per row (joined by
blank lines), each block starting with the line `TY  - JOUR` and ending with
the line `ER  - `, and the full output ends with a newline character. -/
theorem convert_dataframe_to_ris_text_shape (rows : List RisRow) (h : rows ≠ []) :
    convert_dataframe_to_ris_text none = "" ∧
    convert_dataframe_to_ris_text (some []) = "" ∧
    convert_dataframe_to_ris_text (some rows)
      = String.intercalate "\n\n" (rows.map risBlock) ++ "\n" ∧
    (rows.map risBlock).length = rows.length ∧
    (∀ r ∈ rows, (rowToRisLines r).head? = some "TY  - JOUR" ∧
                 (rowToRisLines r).getLast? = some "ER  - ") ∧
    (convert_dataframe_to_ris_text (some rows)).data.getLast? = some '\n' ∧
    convert_dataframe_to_ris_text (some rows) ≠ "" := by
  have hne : rows.isEmpty = false := by simpa using h
  have hconv : convert_dataframe_to_ris_text (some rows)
      = String.intercalate "\n\n" (rows.map risBlock) ++ "\n" := by
    simp [convert_dataframe_to_ris_text, hne]
  have hnl : (convert_dataframe_to_ris_text (some rows)).data.getLast? = some '\n' := by
    rw [hconv]
    rw [String.data_append]
    have hd : ("\n" : String).data = ['\n'] := rfl
    rw [hd]
    exact List.getLast?_concat _
  refine ⟨rfl, rfl, hconv, by simp, fun r _ => ⟨rowToRisLines_head r, rowToRisLines_last r⟩, hnl, ?_⟩
  intro hcon
  rw [hcon] at hnl
  exact absurd hnl (by simp [String.data])

/-- Witness for C10 at a concrete one-row dataframe. -/
theorem convert_dataframe_to_ris_text_shape_witness :
    convert_dataframe_to_ris_text
        (some [⟨some "T", some "A1", none, none, none, [], [], none, none⟩]) ≠ "" :=
  (convert_dataframe_to_ris_text_shape
      [⟨some "T", some "A1", none, none, none, [], [], none, none⟩] (by simp)).2.2.2.2.2.2

/-! ## Inter-round filter selection (`ui_components._render_inter_round_filter_ui_internal`)

The filter widget offers `score_above_threshold` only when the previous round
has a ScoringReviewer; a stored filter type outside the offered options is
silently replaced by `included_previous` (`# Fallback` in the source).  No
other code path reads `filter_config` — in particular
`build_lattereview_workflow_from_config` never looks at it. -/

def prevRoundHasScorer (r : RoundConfig) : Bool :=
  r.agents.any (fun a => a.atype == "ScoringReviewer")

def filterOptionKeys (hasScorer : Bool) : List String :=
  if hasScorer then
    ["included_previous", "all_previous", "excluded_previous",
     "disagreement_previous", "score_above_threshold"]
  else
    ["included_previous", "all_previous", "excluded_previous",
     "disagreement_previous"]

def currentFilterType (r : RoundConfig) : String :=
  match r.filter_config with
  | none => "included_previous"
  | some fc => fc.ftype

/-- The filter type the widget actually displays/stores for a round, given
whether the previous round has a ScoringReviewer. -/
def resolveFilterType (current : String) (hasScorer : Bool) : String :=
  if current ∈ filterOptionKeys hasScorer then current else "included_previous"

/-! ## Workflow construction (`gui_utils.build_lattereview_workflow_from_config`)

Building returns `none` on any error path of the Python function (missing API
key, a round left with no reviewers, empty schema).  Agent and workflow
construction by the external `lattereview` package is modelled as always
succeeding; unknown agent types are skipped exactly as the `continue` does.
`filter_config` is never consulted. -/

def AGENT_TYPE_NAMES : List String :=
  ["TitleAbstractReviewer", "ScoringReviewer", "AbstractionReviewer"]

structure ReviewerSpec where
  agentClass : String
  name : String
  backstory : String
  inclusion_criteria : String
  exclusion_criteria : String
  additional_context : Option String
deriving DecidableEq, Repr

structure SchemaRound where
  round : String
  text_inputs : List String
  reviewers : List ReviewerSpec
deriving DecidableEq, Repr

/-- Round id letter: the character with code 65 + i. -/
def roundId (i : Nat) : String := String.mk [Char.ofNat (65 + i)]

def buildRound (i : Nat) (r : RoundConfig) (rag : List String) : Option SchemaRound :=
  let revs := r.agents.filterMap (fun a =>
    if a.atype ∈ AGENT_TYPE_NAMES then
      some ⟨a.atype, a.name, a.backstory, a.inclusion_criteria, a.exclusion_criteria,
            if rag.isEmpty then none
            else some ("RAG context: " ++ String.intercalate ", " rag ++ ".")⟩
    else none)
  if revs.isEmpty then none else some ⟨roundId i, ["title", "abstract"], revs⟩

def buildRounds (i : Nat) (rs : List RoundConfig) (rag : List String) :
    Option (List SchemaRound) :=
  match rs with
  | [] => some []
  | r :: rest =>
    match buildRound i r rag with
    | none => none
    | some sr =>
      match buildRounds (i + 1) rest rag with
      | none => none
      | some srs => some (sr :: srs)

def build_lattereview_workflow_from_config (cfg : WorkflowConfig) (api_key : String)
    (rag : List String) : Option (List SchemaRound) :=
  if api_key = "" then none
  else
    match buildRounds 0 cfg.rounds rag with
    | none => none
    | some schema => if schema.isEmpty then none else some schema

/-- Replace the `filter_config` of every round by `none`. -/
def stripFilters (cfg : WorkflowConfig) : WorkflowConfig :=
  ⟨cfg.rounds.map (fun r => ⟨r.name, r.agents, none⟩)⟩

theorem buildRound_filter_irrelevant (i : Nat) (r : RoundConfig) (rag : List String) :
    buildRound i ⟨r.name, r.agents, none⟩ rag = buildRound i r rag := rfl

theorem buildRounds_stripFilters (rag : List String) :
    ∀ (i : Nat) (rs : List RoundConfig),
      buildRounds i (rs.map (fun r => ⟨r.name, r.agents, none⟩)) rag = buildRounds i rs rag := by
  intro i rs
  induction rs generalizing i with
  | nil => rfl
  | cons r rest ih =>
    simp only [List.map_cons, buildRounds, buildRound_filter_irrelevant, ih]

/-- A two-round workflow whose second round requests `score_above_threshold`
although the first round has no ScoringReviewer. -/
def cfgScoreFilterNoScorer : WorkflowConfig :=
  ⟨[⟨"Round 1", [⟨"A1", "TitleAbstractReviewer", "", "", ""⟩], some ⟨"all_previous", none⟩⟩,
    ⟨"Round 2", [⟨"A2", "TitleAbstractReviewer", "", "", ""⟩],
      some ⟨"score_above_threshold", some 3⟩⟩]⟩

/-- Claim C4, counterexample: with `score_above_threshold` configured after a
round without any ScoringReviewer, no error is raised at validation/build time
— the workflow builds successfully — and the filter widget silently falls back
to `included_previous`, contradicting the claim that a `ConfigurationError` is
raised and that the engine never silently falls back. -/
theorem score_filter_no_error_counterexample :
    prevRoundHasScorer ⟨"Round 1", [⟨"A1", "TitleAbstractReviewer", "", "", ""⟩],
        some ⟨"all_previous", none⟩⟩ = false ∧
    resolveFilterType
        (currentFilterType ⟨"Round 2", [⟨"A2", "TitleAbstractReviewer", "", "", ""⟩],
            some ⟨"score_above_threshold", some 3⟩⟩) false = "included_previous" ∧
    (build_lattereview_workflow_from_config cfgScoreFilterNoScorer "key" []).isSome = true := by
  refine ⟨rfl, by decide, ?_⟩
  rfl

/-- Claim C4, amended: the GUI performs no validation of inter-round filters:
workflow construction ignores every `filter_config` (building the workflow
with all filters erased gives the same result), and when the previous round
has no ScoringReviewer the filter widget silently replaces a stored
`score_above_threshold` by `included_previous` instead of raising an error. -/
theorem filter_config_never_validated (cfg : WorkflowConfig) (api_key : String)
    (rag : List String) (r : RoundConfig) (h : prevRoundHasScorer r = false) :
    build_lattereview_workflow_from_config (stripFilters cfg) api_key rag
      = build_lattereview_workflow_from_config cfg api_key rag ∧
    resolveFilterType "score_above_threshold" (prevRoundHasScorer r)
      = "included_previous" := by
  constructor
  · unfold build_lattereview_workflow_from_config stripFilters
    rw [buildRounds_stripFilters]
  · rw [h]
    decide

/-- Witness for the amended C4 at a concrete workflow and round. -/
theorem filter_config_never_validated_witness :
    build_lattereview_workflow_from_config (stripFilters cfgScoreFilterNoScorer) "key" []
      = build_lattereview_workflow_from_config cfgScoreFilterNoScorer "key" [] ∧
    resolveFilterType "score_above_threshold"
        (prevRoundHasScorer ⟨"Round 1", [⟨"A1", "TitleAbstractReviewer", "", "", ""⟩],
            some ⟨"all_previous", none⟩⟩)
      = "included_previous" :=
  filter_config_never_validated cfgScoreFilterNoScorer "key" []
    ⟨"Round 1", [⟨"A1", "TitleAbstractReviewer", "", "", ""⟩], some ⟨"all_previous", none⟩⟩
    (by decide)

/-! ## Pandas cell values and raw result rows

A raw results dataframe row (what `ReviewWorkflow` or
`generate_simulated_results` returns) is an association list from column names
to cell values.  `Value.na` is a NaN/None cell, `Value.vlist` a list-valued
cell (extracted concepts).  A missing association models a column that does
not exist in the dataframe, `some .na` a column present with a NaN entry. -/

inductive Value where
  | str (s : String)
  | num (q : Rat)
  | vlist (xs : List String)
  | na
deriving DecidableEq, Repr

abbrev Cells := List (String × Value)

def getCell (row : Cells) (c : String) : Option Value := row.lookup c

def getCellD (row : Cells) (c : String) (dflt : Value) : Value :=
  (getCell row c).getD dflt

/-- Simplified numeric rendering used only inside log lines (Python prints the
float repr; no claim depends on the numeric spelling). -/
def ratStr (q : Rat) : String := toString q.num ++ "/" ++ toString q.den

/-- Python `str()` of a cell, as interpolated into log lines.  The list
rendering drops the Python quotes — again only the `str` case is claim-relevant. -/
def pyStr : Value → String
  | .str s => s
  | .num q => ratStr q
  | .vlist xs => "[" ++ String.intercalate ", " xs ++ "]"
  | .na => "nan"

def ambiguousMsg : String :=
  "ValueError: the truth value of an array with more than one element is ambiguous"

/-- Model of `pd.notna(cell)` as used inside an `if`: a scalar gives a boolean, but a
list-valued cell yields an element-wise boolean array, whose conversion to
`bool` raises a `ValueError` when the list has two or more elements (an empty
array converts to `False`, a one-element array to its element). -/
def notnaE : Value → Except String Bool
  | .na => .ok false
  | .vlist xs =>
    if 2 ≤ xs.length then .error ambiguousMsg
    else if xs.length = 1 then .ok true else .ok false
  | .str _ => .ok true
  | .num _ => .ok true

/-- The log-loop guard `pd.notna(raw_row[c]) and raw_row[c] != ""`. -/
def truthyGuard (v : Value) : Except String Bool :=
  match notnaE v with
  | .error e => .error e
  | .ok false => .ok false
  | .ok true =>
    match v with
    | .str s => if s = "" then .ok false else .ok true
    | _ => .ok true

/-- Python `float(x)` on an optionally signed decimal string; `none` models the
raised `ValueError` for anything else (exponents/inf/nan never occur here). -/
def parsePyFloat (s : String) : Option Rat :=
  let cs := s.data
  let signed : Bool × List Char :=
    match cs with
    | '-' :: r => (true, r)
    | '+' :: r => (false, r)
    | _ => (false, cs)
  let intPart := signed.2.takeWhile Char.isDigit
  let rest := signed.2.dropWhile Char.isDigit
  let fracPart : Option (List Char) :=
    match rest with
    | [] => some []
    | '.' :: fr => if fr.all Char.isDigit then some fr else none
    | _ => none
  match fracPart with
  | none => none
  | some fp =>
    if intPart.isEmpty && fp.isEmpty then none
    else
      let digits := intPart ++ fp
      let n : Nat := digits.foldl (fun a c => a * 10 + (c.toNat - 48)) 0
      let q : Rat := (n : Rat) / ((10 : Rat) ^ fp.length)
      some (if signed.1 then -q else q)

/-- Model of `float(cell)`: numbers pass through, strings are parsed, anything else
raises (caught by the surrounding `except: pass`). -/
def tryFloat : Value → Option Rat
  | .num q => some q
  | .str s => parsePyFloat s
  | .vlist _ => none
  | .na => none

/-! ## Result post-processing (`gui_utils.post_process_review_results`)

Per row the code walks every configured (round, agent, suffix) column in
order, collecting log lines and unioning list-valued `extracted_concepts`
cells, and then derives `final_decision` / `final_score` /
`reasoning_summary` from the evaluation/score/reasoning columns of the first
configured agent of the last configured round. -/

def suffixes : List String :=
  ["evaluation", "score", "reasoning", "extracted_concepts", "error"]

def colName (rid : String) (aname : String) (suffix : String) : String :=
  "round-" ++ rid ++ "_" ++ aname ++ "_" ++ suffix

def agentCols (rid : String) (a : AgentConfig) : List (String × String) :=
  suffixes.map (fun sfx => (colName rid a.name sfx, sfx))

def roundCols (rid : String) : List AgentConfig → List (String × String)
  | [] => []
  | a :: rest => agentCols rid a ++ roundCols rid rest

def scanColsAux (i : Nat) : List RoundConfig → List (String × String)
  | [] => []
  | r :: rest => roundCols (roundId i) r.agents ++ scanColsAux (i + 1) rest

def scanCols (rounds : List RoundConfig) : List (String × String) :=
  scanColsAux 0 rounds

structure StepState where
  logs : List String
  concepts : List String
deriving DecidableEq, Repr

/-- Python `set.update` followed later by `list(...)`: accumulate without
duplicates (insertion order stands in for the unspecified set order; all
claims about concepts are membership claims). -/
def insertNew (acc : List String) (x : String) : List String :=
  if x ∈ acc then acc else acc ++ [x]

def unionList (acc : List String) (xs : List String) : List String :=
  xs.foldl insertNew acc

/-- One iteration of the log loop for the column `p.1` with suffix `p.2`. -/
def processCell (row : Cells) (p : String × String) (st : StepState) :
    Except String StepState :=
  match getCell row p.1 with
  | none => .ok st
  | some v =>
    match truthyGuard v with
    | .error e => .error e
    | .ok false => .ok st
    | .ok true =>
      let logs1 := st.logs ++ [p.1 ++ ": " ++ pyStr v]
      let conc1 :=
        if p.2 = "extracted_concepts" then
          match v with
          | .vlist xs => unionList st.concepts xs
          | _ => st.concepts
        else st.concepts
      .ok ⟨logs1, conc1⟩

def foldCells (row : Cells) : List (String × String) → StepState → Except String StepState
  | [], st => .ok st
  | p :: ps, st =>
    match processCell row p st with
    | .error e => .error e
    | .ok st1 => foldCells row ps st1

def collectState (rounds : List RoundConfig) (row : Cells) : Except String StepState :=
  foldCells row (scanCols rounds) ⟨[], []⟩

/-- The round id and first-agent name of the last configured round, when the
rounds list is non-empty and that round has agents. -/
def lastRoundInfo (rounds : List RoundConfig) : Option (String × String) :=
  match rounds.getLast? with
  | none => none
  | some r =>
    match r.agents with
    | [] => none
    | a :: _ => some (roundId (rounds.length - 1), a.name)

structure FinalFields where
  final_decision : Value
  final_score : Value
  reasoning_summary : Value
deriving DecidableEq, Repr

/-- Model of the guarded field override, kept at the initialized default when
the column is absent or NaN. -/
def fieldOr (o : Option Value) (dflt : Value) : Except String Value :=
  match o with
  | none => .ok dflt
  | some v =>
    match notnaE v with
    | .error e => .error e
    | .ok true => .ok v
    | .ok false => .ok dflt

/-- Model of the guarded float conversion whose except-pass keeps the
initialized default. -/
def scoreOr (o : Option Value) (dflt : Value) : Except String Value :=
  match o with
  | none => .ok dflt
  | some v =>
    match notnaE v with
    | .error e => .error e
    | .ok true =>
      match tryFloat v with
      | some q => .ok (.num q)
      | none => .ok dflt
    | .ok false => .ok dflt

/-- Model of the guarded reasoning truncation to 200 characters plus an
ellipsis. -/
def reasonOr (o : Option Value) (dflt : Value) : Except String Value :=
  match o with
  | none => .ok dflt
  | some v =>
    match notnaE v with
    | .error e => .error e
    | .ok true => .ok (.str ((pyStr v).take 200 ++ "..."))
    | .ok false => .ok dflt

def computeFinal (rounds : List RoundConfig) (row : Cells) : Except String FinalFields :=
  match lastRoundInfo rounds with
  | none =>
    .ok ⟨getCellD row "final_decision" (.str "N/A"),
         getCellD row "final_score" .na,
         getCellD row "reasoning_summary" (.str "N/A")⟩
  | some (rid, an) =>
    match fieldOr (getCell row (colName rid an "evaluation"))
        (getCellD row "final_decision" (.str "N/A")) with
    | .error e => .error e
    | .ok fd =>
      match scoreOr (getCell row (colName rid an "score"))
          (getCellD row "final_score" .na) with
      | .error e => .error e
      | .ok fs =>
        match reasonOr (getCell row (colName rid an "reasoning"))
            (getCellD row "reasoning_summary" (.str "N/A")) with
        | .error e => .error e
        | .ok rs => .ok ⟨fd, fs, rs⟩

structure ProcessedRow where
  base : Cells
  final_decision : Value
  final_score : Value
  reasoning_summary : Value
  detailed_workflow_log : Value
  extracted_concepts : Value
deriving DecidableEq, Repr

def postProcessRow (rounds : List RoundConfig) (row : Cells) :
    Except String ProcessedRow :=
  if rounds.isEmpty then
    .ok ⟨row,
         getCellD row "final_decision" (.str "N/A"),
         getCellD row "final_score" .na,
         getCellD row "reasoning_summary" (.str "N/A"),
         getCellD row "detailed_workflow_log" (.str "N/A"),
         getCellD row "extracted_concepts" (.vlist [])⟩
  else
    match collectState rounds row with
    | .error e => .error e
    | .ok st =>
      match computeFinal rounds row with
      | .error e => .error e
      | .ok ff =>
        .ok ⟨row, ff.final_decision, ff.final_score, ff.reasoning_summary,
             .str (String.intercalate "\n" st.logs),
             if st.concepts.isEmpty then getCellD row "extracted_concepts" (.vlist [])
             else .vlist st.concepts⟩

def mapRowsExcept (rounds : List RoundConfig) : List Cells → Except String (List ProcessedRow)
  | [] => .ok []
  | row :: rest =>
    match postProcessRow rounds row with
    | .error e => .error e
    | .ok pr =>
      match mapRowsExcept rounds rest with
      | .error e => .error e
      | .ok prs => .ok (pr :: prs)

/-- Embedding of `gui_utils.post_process_review_results`: `None` input gives an empty
table, otherwise each raw row is processed in order (a raised exception
aborts the whole call). -/
def post_process_review_results (dfOpt : Option (List Cells))
    (rounds : List RoundConfig) : Except String (List ProcessedRow) :=
  match dfOpt with
  | none => .ok []
  | some rows => mapRowsExcept rounds rows

/-! ## Simulated-results aggregation (`app.generate_simulated_results`, lines 260–294)

Given the per-agent outputs of the last round, the simulated path derives the
final score as the mean of all present scores, rounded Python-style
(`round(x, 1)`, round half to even) to one decimal. -/

structure SimOutput where
  agent : String
  decision : String
  reasoning : String
  score : Option Rat
  extracted_concepts : Option (List String)
deriving DecidableEq, Repr

/-- Python `round(x)`: round half to even. -/
def pyRound0 (x : Rat) : Int :=
  let n := ⌊x⌋
  let r := x - (n : Rat)
  if r < 1 / 2 then n
  else if 1 / 2 < r then n + 1
  else if n % 2 = 0 then n else n + 1

/-- Python `round(x, 1)`. -/
def pyRound1 (x : Rat) : Rat := ((pyRound0 (x * 10) : Rat)) / 10

def simScores (outs : List SimOutput) : List Rat :=
  outs.filterMap (fun o => o.score)

/-- Model of the score collection and averaging of the simulated path:
round(sum(scores)/len(scores), 1) over all present scores. -/
def simFinalScore (outs : List SimOutput) : Option Rat :=
  if (simScores outs).isEmpty then none
  else some (pyRound1 ((simScores outs).sum / ((simScores outs).length : Rat)))

/-! ## Helper lemmas about the post-processing pipeline -/

theorem postProcessRow_base {rounds : List RoundConfig} {row : Cells}
    {pr : ProcessedRow} (h : postProcessRow rounds row = .ok pr) : pr.base = row := by
  unfold postProcessRow at h
  by_cases he : rounds.isEmpty = true
  · rw [if_pos he] at h
    cases h
    rfl
  · rw [if_neg he] at h
    cases hcs : collectState rounds row with
    | error e => rw [hcs] at h; cases h
    | ok st =>
      rw [hcs] at h
      cases hcf : computeFinal rounds row with
      | error e => rw [hcf] at h; cases h
      | ok ff => rw [hcf] at h; cases h; rfl

theorem postProcessRow_ok_nonempty {rounds : List RoundConfig} {row : Cells}
    {pr : ProcessedRow} (hne : rounds ≠ []) (h : postProcessRow rounds row = .ok pr) :
    ∃ st ff, collectState rounds row = .ok st ∧ computeFinal rounds row = .ok ff ∧
      pr = ⟨row, ff.final_decision, ff.final_score, ff.reasoning_summary,
            .str (String.intercalate "\n" st.logs),
            if st.concepts.isEmpty then getCellD row "extracted_concepts" (.vlist [])
            else .vlist st.concepts⟩ := by
  unfold postProcessRow at h
  rw [if_neg (by simpa using hne)] at h
  cases hcs : collectState rounds row with
  | error e => rw [hcs] at h; cases h
  | ok st =>
    rw [hcs] at h
    cases hcf : computeFinal rounds row with
    | error e => rw [hcf] at h; cases h
    | ok ff =>
      rw [hcf] at h
      cases h
      exact ⟨st, ff, rfl, rfl, rfl⟩

theorem lastRoundInfo_ne_nil {rounds : List RoundConfig} {x : String × String}
    (h : lastRoundInfo rounds = some x) : rounds ≠ [] := by
  intro hcon
  subst hcon
  cases h

theorem mapRowsExcept_bases {rounds : List RoundConfig} :
    ∀ {rows : List Cells} {out : List ProcessedRow},
      mapRowsExcept rounds rows = .ok out → out.map (fun pr => pr.base) = rows := by
  intro rows
  induction rows with
  | nil =>
    intro out h
    cases h
    rfl
  | cons row rest ih =>
    intro out h
    unfold mapRowsExcept at h
    cases hp : postProcessRow rounds row with
    | error e => rw [hp] at h; cases h
    | ok pr =>
      rw [hp] at h
      cases hm : mapRowsExcept rounds rest with
      | error e => rw [hm] at h; cases h
      | ok prs =>
        rw [hm] at h
        cases h
        simp only [List.map_cons]
        rw [postProcessRow_base hp, ih hm]

/-- Claim C1, amended: whenever aggregation completes and returns a result
table, that table has exactly one processed row per raw input row, in order,
each carrying its original cells — no records are gained or lost.  The
unconditional claim fails: aggregation can instead raise and return no table
at all (see the counterexample below), so record preservation holds exactly
for the runs that produce a table.  Termination is by construction (the
embedding is a total function: every run ends in a table or in the raised
error). -/
theorem post_process_one_row_per_record (rounds : List RoundConfig)
    (rows : List Cells) (out : List ProcessedRow)
    (h : post_process_review_results (some rows) rounds = .ok out) :
    out.map (fun pr => pr.base) = rows ∧ out.length = rows.length := by
  have hb : out.map (fun pr => pr.base) = rows := mapRowsExcept_bases h
  refine ⟨hb, ?_⟩
  have := congrArg List.length hb
  simpa using this

def cfgOneAgent : List RoundConfig :=
  [⟨"Round 1", [⟨"Agent1", "TitleAbstractReviewer", "", "", ""⟩], none⟩]

def rowOneEval : Cells := [("round-A_Agent1_evaluation", Value.str "Included")]

def prOneEval : ProcessedRow :=
  ⟨rowOneEval, .str "Included", .na, .str "N/A",
   .str "round-A_Agent1_evaluation: Included", .vlist []⟩

/-- Witness for C1 on a concrete one-round, one-record table. -/
theorem post_process_one_row_per_record_witness :
    [prOneEval].map (fun pr => pr.base) = [rowOneEval] ∧
    [prOneEval].length = [rowOneEval].length :=
  post_process_one_row_per_record cfgOneAgent [rowOneEval] [prOneEval] rfl

theorem computeFinal_congr {rounds : List RoundConfig} {r1 r2 : Cells}
    {rid an : String}
    (hlast : lastRoundInfo rounds = some (rid, an))
    (heval : getCell r1 (colName rid an "evaluation") = getCell r2 (colName rid an "evaluation"))
    (hscore : getCell r1 (colName rid an "score") = getCell r2 (colName rid an "score"))
    (hreason : getCell r1 (colName rid an "reasoning") = getCell r2 (colName rid an "reasoning"))
    (hfd : getCell r1 "final_decision" = getCell r2 "final_decision")
    (hfs : getCell r1 "final_score" = getCell r2 "final_score")
    (hrs : getCell r1 "reasoning_summary" = getCell r2 "reasoning_summary") :
    computeFinal rounds r1 = computeFinal rounds r2 := by
  simp only [computeFinal, hlast, getCellD]
  rw [heval, hscore, hreason, hfd, hfs, hrs]

theorem computeFinal_parts {rounds : List RoundConfig} {row : Cells}
    {rid an : String} {ff : FinalFields}
    (hlast : lastRoundInfo rounds = some (rid, an))
    (hcf : computeFinal rounds row = .ok ff) :
    fieldOr (getCell row (colName rid an "evaluation"))
        (getCellD row "final_decision" (.str "N/A")) = .ok ff.final_decision ∧
    scoreOr (getCell row (colName rid an "score"))
        (getCellD row "final_score" .na) = .ok ff.final_score ∧
    reasonOr (getCell row (colName rid an "reasoning"))
        (getCellD row "reasoning_summary" (.str "N/A")) = .ok ff.reasoning_summary := by
  simp only [computeFinal, hlast] at hcf
  cases h1 : fieldOr (getCell row (colName rid an "evaluation"))
      (getCellD row "final_decision" (.str "N/A")) with
  | error e => rw [h1] at hcf; exact absurd hcf (by simp)
  | ok fd =>
    rw [h1] at hcf
    cases h2 : scoreOr (getCell row (colName rid an "score"))
        (getCellD row "final_score" .na) with
    | error e => rw [h2] at hcf; exact absurd hcf (by simp)
    | ok fs =>
      rw [h2] at hcf
      cases h3 : reasonOr (getCell row (colName rid an "reasoning"))
          (getCellD row "reasoning_summary" (.str "N/A")) with
      | error e => rw [h3] at hcf; exact absurd hcf (by simp)
      | ok rs =>
        rw [h3] at hcf
        injection hcf with hff
        subst hff
        exact ⟨rfl, rfl, rfl⟩

/-- Claim C2: the aggregated `final_decision`, `final_score` and
`reasoning_summary` depend only on the evaluation/score/reasoning columns of
the first configured agent of the last configured round (plus any
pre-existing summary columns, absent in backend output): two raw rows that
agree on those cells — however much the columns of other rounds or of other
agents differ — produce identical values for the three fields. -/
theorem final_fields_last_round_first_agent_only (rounds : List RoundConfig)
    (r1 r2 : Cells) (pr1 pr2 : ProcessedRow) (rid an : String)
    (hlast : lastRoundInfo rounds = some (rid, an))
    (h1 : postProcessRow rounds r1 = .ok pr1)
    (h2 : postProcessRow rounds r2 = .ok pr2)
    (heval : getCell r1 (colName rid an "evaluation") = getCell r2 (colName rid an "evaluation"))
    (hscore : getCell r1 (colName rid an "score") = getCell r2 (colName rid an "score"))
    (hreason : getCell r1 (colName rid an "reasoning") = getCell r2 (colName rid an "reasoning"))
    (hfd : getCell r1 "final_decision" = getCell r2 "final_decision")
    (hfs : getCell r1 "final_score" = getCell r2 "final_score")
    (hrs : getCell r1 "reasoning_summary" = getCell r2 "reasoning_summary") :
    pr1.final_decision = pr2.final_decision ∧
    pr1.final_score = pr2.final_score ∧
    pr1.reasoning_summary = pr2.reasoning_summary := by
  have hne := lastRoundInfo_ne_nil hlast
  obtain ⟨st1, ff1, hcs1, hcf1, hpr1⟩ := postProcessRow_ok_nonempty hne h1
  obtain ⟨st2, ff2, hcs2, hcf2, hpr2⟩ := postProcessRow_ok_nonempty hne h2
  have hcc := computeFinal_congr hlast heval hscore hreason hfd hfs hrs
  rw [hcf1, hcf2] at hcc
  injection hcc with hff
  subst hff
  subst hpr1
  subst hpr2
  exact ⟨rfl, rfl, rfl⟩

def cfgTwoRounds : List RoundConfig :=
  [⟨"R1", [⟨"P1", "TitleAbstractReviewer", "", "", ""⟩], none⟩,
   ⟨"R2", [⟨"Q1", "TitleAbstractReviewer", "", "", ""⟩], none⟩]

def rowLastOnly : Cells := [("round-B_Q1_evaluation", Value.str "Included")]

def rowBothRounds : Cells :=
  [("round-A_P1_evaluation", Value.str "Excluded"),
   ("round-B_Q1_evaluation", Value.str "Included")]

def prLastOnly : ProcessedRow :=
  ⟨rowLastOnly, .str "Included", .na, .str "N/A",
   .str "round-B_Q1_evaluation: Included", .vlist []⟩

def prBothRounds : ProcessedRow :=
  ⟨rowBothRounds, .str "Included", .na, .str "N/A",
   .str "round-A_P1_evaluation: Excluded\nround-B_Q1_evaluation: Included", .vlist []⟩

/-- Witness for C2: two concrete rows differing only in a round-A column get
identical final fields. -/
theorem final_fields_last_round_first_agent_only_witness :
    prLastOnly.final_decision = prBothRounds.final_decision ∧
    prLastOnly.final_score = prBothRounds.final_score ∧
    prLastOnly.reasoning_summary = prBothRounds.reasoning_summary :=
  final_fields_last_round_first_agent_only cfgTwoRounds rowLastOnly rowBothRounds
    prLastOnly prBothRounds "B" "Q1" (by decide) rfl rfl rfl rfl rfl rfl rfl rfl

/-! ## C3: final score with several ScoringReviewers in the last round -/

def cfgTwoScorers : List RoundConfig :=
  [⟨"R1", [⟨"S1", "ScoringReviewer", "", "", ""⟩, ⟨"S2", "ScoringReviewer", "", "", ""⟩], none⟩]

def rowTwoScores : Cells :=
  [("round-A_S1_evaluation", Value.str "Included"), ("round-A_S1_score", Value.num 4),
   ("round-A_S2_evaluation", Value.str "Included"), ("round-A_S2_score", Value.num 2)]

/-- Claim C3, counterexample: with a single final round holding two
ScoringReviewers whose scores are 4.0 and 2.0, the aggregation yields
`final_score = 4.0` — the score of the first configured agent — not the arithmetic
mean 3.0 the claim requires. -/
theorem final_score_not_mean_counterexample :
    Except.map (fun pr => pr.final_score) (postProcessRow cfgTwoScorers rowTwoScores)
      = .ok (Value.num 4) ∧ Value.num 4 ≠ Value.num 3 :=
  ⟨rfl, by decide⟩

/-- Claim C3, amended: the mean-rounded-to-one-decimal rule holds only in the
simulated-results path (`generate_simulated_results`), where the scenario
{4.0, 2.0} indeed yields 3.0; the aggregation of real backend results
(`post_process_review_results`) instead takes the score of the first
configured agent of the last round, 4.0 in the same scenario. -/
theorem final_score_mean_only_in_simulation :
    simFinalScore [⟨"S1", "Included", "", some 4, none⟩, ⟨"S2", "Included", "", some 2, none⟩]
      = some 3 ∧
    Except.map (fun pr => pr.final_score) (postProcessRow cfgTwoScorers rowTwoScores)
      = .ok (Value.num 4) := by
  constructor
  · have hpr3 : pyRound1 3 = 3 := by
      simp only [pyRound1, pyRound0]
      norm_num [Int.floor_ofNat]
    have hsc : simScores
        [⟨"S1", "Included", "", some 4, none⟩, ⟨"S2", "Included", "", some 2, none⟩]
        = [4, 2] := rfl
    unfold simFinalScore
    rw [hsc]
    have h1 : (([4, 2] : List Rat).sum / ((([4, 2] : List Rat).length : Nat) : Rat)) = 3 := by
      norm_num [List.sum_cons, List.sum_nil]
    rw [if_neg (by simp)]
    rw [h1, hpr3]
  · rfl

/-! ## C6: records for which the deciding agent produced nothing -/

def cfgOneScorer : List RoundConfig :=
  [⟨"R1", [⟨"S1", "ScoringReviewer", "", "", ""⟩], none⟩]

def rowScoreNoEval : Cells := [("round-A_S1_score", Value.num (21 / 5))]

/-- Claim C6, counterexample: a record whose evaluation column for the deciding
agent is absent but whose score column is 4.2 gets `final_decision = "N/A"`
yet `final_score = 4.2`, not null — the conclusion of the claim
`final_score = null` fails when the condition is read, as stated, on the
evaluation column alone. -/
theorem na_decision_with_score_counterexample :
    Except.map (fun pr => (pr.final_decision, pr.final_score))
        (postProcessRow cfgOneScorer rowScoreNoEval)
      = .ok (Value.str "N/A", Value.num (21 / 5)) ∧
    Value.num (21 / 5) ≠ Value.na :=
  ⟨rfl, by decide⟩

/-- Claim C6, amended: if the first configured agent of the last round produced
no output at all for a record — both its evaluation and its score column are
absent or NaN — and the raw table carries no pre-existing summary columns,
aggregation yields `final_decision = "N/A"` and `final_score = null`. -/
theorem no_agent_output_gives_na (rounds : List RoundConfig) (row : Cells)
    (pr : ProcessedRow) (rid an : String)
    (hpr : postProcessRow rounds row = .ok pr)
    (hlast : lastRoundInfo rounds = some (rid, an))
    (heval : getCell row (colName rid an "evaluation") = none ∨
             getCell row (colName rid an "evaluation") = some .na)
    (hscore : getCell row (colName rid an "score") = none ∨
              getCell row (colName rid an "score") = some .na)
    (hfd : getCell row "final_decision" = none)
    (hfs : getCell row "final_score" = none) :
    pr.final_decision = .str "N/A" ∧ pr.final_score = .na := by
  have hne := lastRoundInfo_ne_nil hlast
  obtain ⟨st, ff, hcs, hcf, hpre⟩ := postProcessRow_ok_nonempty hne hpr
  subst hpre
  obtain ⟨hffd, hffs, _⟩ := computeFinal_parts hlast hcf
  have hd1 : getCellD row "final_decision" (Value.str "N/A") = Value.str "N/A" := by
    simp [getCellD, hfd]
  have hd2 : getCellD row "final_score" Value.na = Value.na := by
    simp [getCellD, hfs]
  constructor
  · show ff.final_decision = Value.str "N/A"
    rcases heval with he | he <;>
      rw [he] at hffd <;>
      simp only [fieldOr, notnaE, hd1, Except.ok.injEq] at hffd <;>
      exact hffd.symm
  · show ff.final_score = Value.na
    rcases hscore with hs | hs <;>
      rw [hs] at hffs <;>
      simp only [scoreOr, notnaE, hd2, Except.ok.injEq] at hffs <;>
      exact hffs.symm

/-- Witness for the amended C6: an empty raw row in a one-round workflow. -/
theorem no_agent_output_gives_na_witness :
    (ProcessedRow.mk [] (.str "N/A") .na (.str "N/A") (.str "") (.vlist [])).final_decision
      = .str "N/A" ∧
    (ProcessedRow.mk [] (.str "N/A") .na (.str "N/A") (.str "") (.vlist [])).final_score
      = .na :=
  no_agent_output_gives_na cfgOneScorer []
    (ProcessedRow.mk [] (.str "N/A") .na (.str "N/A") (.str "") (.vlist []))
    "A" "S1" rfl (by decide) (Or.inl rfl) (Or.inl rfl) rfl rfl

/-! ## C7: unparseable scores are excluded from the score but logged verbatim -/

theorem processCell_logs_mono {row : Cells} {p : String × String}
    {st st' : StepState} (h : processCell row p st = .ok st') :
    ∀ x ∈ st.logs, x ∈ st'.logs := by
  intro x hx
  cases hg : getCell row p.1 with
  | none =>
    simp only [processCell, hg, Except.ok.injEq] at h
    subst h
    exact hx
  | some v =>
    simp only [processCell, hg] at h
    cases ht : truthyGuard v with
    | error e =>
      simp only [ht] at h
      exact absurd h (by simp)
    | ok b =>
      cases b with
      | false =>
        simp only [ht, Except.ok.injEq] at h
        subst h
        exact hx
      | true =>
        simp only [ht, Except.ok.injEq] at h
        subst h
        exact List.mem_append_left _ hx

theorem foldCells_logs_mono {row : Cells} :
    ∀ {ps : List (String × String)} {st st' : StepState},
      foldCells row ps st = .ok st' → ∀ x ∈ st.logs, x ∈ st'.logs := by
  intro ps
  induction ps with
  | nil =>
    intro st st' h x hx
    cases h
    exact hx
  | cons p rest ih =>
    intro st st' h x hx
    cases hp : processCell row p st with
    | error e =>
      simp only [foldCells, hp] at h
      exact absurd h (by simp)
    | ok st1 =>
      simp only [foldCells, hp] at h
      exact ih h x (processCell_logs_mono hp x hx)

theorem foldCells_mem_entry {row : Cells} {p : String × String} {v : Value}
    (hv : getCell row p.1 = some v) (hg : truthyGuard v = .ok true) :
    ∀ {ps : List (String × String)} {st st' : StepState},
      p ∈ ps → foldCells row ps st = .ok st' →
      (p.1 ++ ": " ++ pyStr v) ∈ st'.logs := by
  intro ps
  induction ps with
  | nil => intro st st' hmem _; exact absurd hmem (by simp)
  | cons q rest ih =>
    intro st st' hmem h
    cases hq : processCell row q st with
    | error e =>
      simp only [foldCells, hq] at h
      exact absurd h (by simp)
    | ok st1 =>
      simp only [foldCells, hq] at h
      rcases List.mem_cons.mp hmem with heq | htail
      · subst heq
        have hentry : (p.1 ++ ": " ++ pyStr v) ∈ st1.logs := by
          simp only [processCell, hv, hg, Except.ok.injEq] at hq
          subst hq
          exact List.mem_append_right _ (by simp)
        exact foldCells_logs_mono h _ hentry
      · exact ih htail h

theorem mem_scanColsAux {sfx : String} (hsfx : sfx ∈ suffixes) :
    ∀ (rounds : List RoundConfig) (i : Nat) (r : RoundConfig) (a : AgentConfig)
      (rest : List AgentConfig),
      rounds.getLast? = some r → r.agents = a :: rest →
      (colName (roundId (i + rounds.length - 1)) a.name sfx, sfx) ∈ scanColsAux i rounds := by
  intro rounds
  induction rounds with
  | nil => intro i r a rest hlast _; cases hlast
  | cons r0 rtail ih =>
    intro i r a rest hlast hagents
    cases rtail with
    | nil =>
      have hr0 : r0 = r := by
        have : (r0 :: ([] : List RoundConfig)).getLast? = some r0 := rfl
        rw [this] at hlast
        injection hlast
      subst hr0
      have hidx : i + (r0 :: ([] : List RoundConfig)).length - 1 = i := by simp
      rw [hidx]
      show _ ∈ roundCols (roundId i) r0.agents ++ scanColsAux (i + 1) []
      apply List.mem_append_left
      rw [hagents]
      show _ ∈ agentCols (roundId i) a ++ roundCols (roundId i) rest
      apply List.mem_append_left
      unfold agentCols
      exact List.mem_map_of_mem _ hsfx
    | cons r1 rtl =>
      have hlast' : (r1 :: rtl).getLast? = some r := by
        rw [← hlast]
        exact List.getLast?_cons_cons.symm
      have hmem := ih (i + 1) r a rest hlast' hagents
      have hidx : (i + 1) + (r1 :: rtl).length - 1
          = i + (r0 :: r1 :: rtl).length - 1 := by
        simp [List.length_cons]
        omega
      rw [hidx] at hmem
      show _ ∈ roundCols (roundId i) r0.agents ++ scanColsAux (i + 1) (r1 :: rtl)
      exact List.mem_append_right _ hmem

theorem lastRoundInfo_elim {rounds : List RoundConfig} {rid an : String}
    (h : lastRoundInfo rounds = some (rid, an)) :
    ∃ r a rest, rounds.getLast? = some r ∧ r.agents = a :: rest ∧
      rid = roundId (rounds.length - 1) ∧ an = a.name := by
  cases hl : rounds.getLast? with
  | none =>
    simp only [lastRoundInfo, hl] at h
    exact absurd h (by simp)
  | some r =>
    simp only [lastRoundInfo, hl] at h
    cases ha : r.agents with
    | nil =>
      simp only [ha] at h
      exact absurd h (by simp)
    | cons a rest =>
      simp only [ha, Option.some.injEq, Prod.mk.injEq] at h
      exact ⟨r, a, rest, rfl, ha, h.1.symm, h.2.symm⟩

theorem mem_scanCols_of_lastRoundInfo {rounds : List RoundConfig} {rid an : String}
    {sfx : String} (hlast : lastRoundInfo rounds = some (rid, an))
    (hsfx : sfx ∈ suffixes) :
    (colName rid an sfx, sfx) ∈ scanCols rounds := by
  obtain ⟨r, a, rest, hl, ha, hrid, han⟩ := lastRoundInfo_elim hlast
  subst hrid
  subst han
  have := mem_scanColsAux hsfx rounds 0 r a rest hl ha
  simpa [scanCols] using this

/-- Claim C7: an unparseable score string for the deciding agent is excluded
rather than treated as zero — `final_score` stays null (assuming no
pre-existing `final_score` column) — while the offending raw value is still
written verbatim into the detailed log line for its column. -/
theorem unparseable_score_excluded_but_logged (rounds : List RoundConfig)
    (row : Cells) (pr : ProcessedRow) (rid an s : String)
    (hpr : postProcessRow rounds row = .ok pr)
    (hlast : lastRoundInfo rounds = some (rid, an))
    (hfs : getCell row "final_score" = none)
    (hsc : getCell row (colName rid an "score") = some (.str s))
    (hparse : parsePyFloat s = none)
    (hne : s ≠ "") :
    pr.final_score = .na ∧ pr.final_score ≠ .num 0 ∧
    ∃ st, collectState rounds row = .ok st ∧
      (colName rid an "score" ++ ": " ++ s) ∈ st.logs ∧
      pr.detailed_workflow_log = .str (String.intercalate "\n" st.logs) := by
  have hner := lastRoundInfo_ne_nil hlast
  obtain ⟨st, ff, hcs, hcf, hpre⟩ := postProcessRow_ok_nonempty hner hpr
  subst hpre
  obtain ⟨_, hffs, _⟩ := computeFinal_parts hlast hcf
  have hd2 : getCellD row "final_score" Value.na = Value.na := by
    simp [getCellD, hfs]
  have hfsna : ff.final_score = Value.na := by
    rw [hsc] at hffs
    simp only [scoreOr, notnaE, tryFloat, hparse, hd2, Except.ok.injEq] at hffs
    exact hffs.symm
  have hmemlog : (colName rid an "score" ++ ": " ++ s) ∈ st.logs := by
    have hguard : truthyGuard (Value.str s) = .ok true := by
      simp [truthyGuard, notnaE, hne]
    have hmem := mem_scanCols_of_lastRoundInfo hlast (show "score" ∈ suffixes by decide)
    have := foldCells_mem_entry (p := (colName rid an "score", "score")) hsc hguard hmem hcs
    simpa [pyStr] using this
  refine ⟨hfsna, ?_, st, hcs, hmemlog, rfl⟩
  show ff.final_score ≠ Value.num 0
  rw [hfsna]
  intro hcon
  cases hcon

def rowBadScore : Cells :=
  [("round-A_S1_evaluation", Value.str "Included"),
   ("round-A_S1_score", Value.str "bad_score")]

def prBadScore : ProcessedRow :=
  ⟨rowBadScore, .str "Included", .na, .str "N/A",
   .str "round-A_S1_evaluation: Included\nround-A_S1_score: bad_score", .vlist []⟩

/-- Witness for C7: the concrete unparseable score `"bad_score"`. -/
theorem unparseable_score_excluded_but_logged_witness :
    prBadScore.final_score = .na ∧ prBadScore.final_score ≠ .num 0 ∧
    ∃ st, collectState cfgOneScorer rowBadScore = .ok st ∧
      (colName "A" "S1" "score" ++ ": " ++ "bad_score") ∈ st.logs ∧
      prBadScore.detailed_workflow_log = .str (String.intercalate "\n" st.logs) :=
  unparseable_score_excluded_but_logged cfgOneScorer rowBadScore prBadScore
    "A" "S1" "bad_score" rfl (by decide) rfl rfl (by decide) (by decide)

/-! ## C5: the union of extracted-concepts lists -/

def cfgAbstraction : List RoundConfig :=
  [⟨"Round 1", [⟨"Agent1", "AbstractionReviewer", "", "", ""⟩], none⟩]

def rowTwoConcepts : Cells :=
  [("round-A_Agent1_extracted_concepts",
    Value.vlist ["KeyConceptAlpha", "KeyConceptBeta"])]

def rowOneConcept : Cells :=
  [("round-A_Agent1_extracted_concepts", Value.vlist ["OnlyOne"])]

/-- Claim C5, code bug: the log-loop guard applies `pd.notna` to the raw cell;
for a list-valued `extracted_concepts` cell with two or more elements this
yields a boolean array whose `bool()` conversion raises a `ValueError`, so the
whole aggregation aborts instead of unioning the list — even though the
`isinstance(…, list)` branch right below shows the union of list cells is the
intent (and `generate_simulated_results` produces exactly such cells).  A
one-element list does reach the union branch. -/
theorem extracted_concepts_union_crashes_on_lists :
    post_process_review_results (some [rowTwoConcepts]) cfgAbstraction
      = .error ambiguousMsg ∧
    Except.map (List.map (fun pr => pr.extracted_concepts))
        (post_process_review_results (some [rowOneConcept]) cfgAbstraction)
      = .ok [Value.vlist ["OnlyOne"]] :=
  ⟨rfl, rfl⟩

/-- Claim C1, counterexample: a runnable workflow (one round, one agent) over a
non-empty record set for which aggregation does not produce a one-row result
table — it raises the list-cell `ValueError` instead and returns no table,
refuting the unconditional one-FinalResult-per-record claim.  The offending
cell is a two-element extracted-concepts list, exactly what
`generate_simulated_results` emits for an AbstractionReviewer. -/
theorem post_process_loses_table_counterexample :
    is_workflow_runnable (some ⟨cfgAbstraction⟩) = true ∧
    ([rowTwoConcepts] : List Cells) ≠ [] ∧
    post_process_review_results (some [rowTwoConcepts]) cfgAbstraction
      = .error ambiguousMsg ∧
    Except.map (List.map (fun pr => pr.base))
        (post_process_review_results (some [rowTwoConcepts]) cfgAbstraction)
      ≠ .ok [rowTwoConcepts] := by
  have h3 : post_process_review_results (some [rowTwoConcepts]) cfgAbstraction
      = .error ambiguousMsg := rfl
  refine ⟨by decide, by decide, h3, ?_⟩
  intro hcon
  rw [h3] at hcon
  simp [Except.map] at hcon

end LatteReview
